import Mathlib

/-!
# Proxy Virtual Filesystem Bridge — shallow embedding

A shallow embedding of `src/libs/wasix/rust/engine/src/fs.rs` (native target):
the metadata translator `to_vfs_metadata`, the `ProxyFileSystem` facade, the
`ProxyFile` handle object, and the in-memory callback backend built by
`make_test_fs` in the test module (closures `open_cb`, `handle_read_cb`,
`handle_write_cb`, `handle_seek_cb`, `handle_close_cb`, `write_file`,
`read_file`, `metadata_cb`).

Bytes are modelled as `Nat` (values of `u8`), buffers as `List Nat`,
`HashMap`s as association lists with replace-on-insert, the `AtomicU64`
handle counter as a `Nat` field.  A Rust panic (out-of-bounds slice) is
modelled as a distinguished `panicked` outcome.
-/

namespace ProxyFs

/-- Errors of `virtual_fs::FsError` used by the bridge. -/
inductive FsError where
  | EntryNotFound
  | InvalidFd
  | Unsupported
  deriving DecidableEq, Repr

/-- Struct `FsMetadata { is_file, is_dir, len }` from fs.rs. -/
structure FsMetadata where
  is_file : Bool
  is_dir : Bool
  len : Nat
  deriving DecidableEq, Repr

/-- Type `virtual_fs::FileType`: the two constructors used by the bridge set one
flag each (`FileType::new_dir`, `FileType::new_file`). -/
structure FileType where
  dir : Bool
  file : Bool
  deriving DecidableEq, Repr

def FileType.new_dir : FileType := ⟨true, false⟩

def FileType.new_file : FileType := ⟨false, true⟩

/-- Type `virtual_fs::Metadata` as populated by the bridge. -/
structure Metadata where
  ft : FileType
  accessed : Nat
  created : Nat
  modified : Nat
  len : Nat
  deriving DecidableEq, Repr

/-- Function `to_vfs_metadata` (fs.rs lines 329–341): file-type from `is_dir`,
timestamps zero, `len` from `len`. -/
def to_vfs_metadata (m : FsMetadata) : Metadata :=
  { ft := if m.is_dir then FileType.new_dir else FileType.new_file
    accessed := 0
    created := 0
    modified := 0
    len := m.len }

/-- Struct `OpenFlags` from fs.rs. -/
structure OpenFlags where
  read : Bool
  write : Bool
  create : Bool
  create_new : Bool
  truncate : Bool
  append : Bool
  deriving DecidableEq, Repr

/-- Type `std::io::SeekFrom`: `Start(u64)`, `Current(i64)`, `End(i64)`. -/
inductive SeekFrom where
  | start (n : Nat)
  | current (off : Int)
  | fromEnd (off : Int)
  deriving DecidableEq, Repr

/-- Reinterpret a `u64` value as an `i64` (Rust `as i64` cast, two's
complement). -/
def i64ofU64 (n : Nat) : Int :=
  if n % 2 ^ 64 < 2 ^ 63 then ((n % 2 ^ 64 : Nat) : Int)
  else ((n % 2 ^ 64 : Nat) : Int) - 2 ^ 64

/-- Reinterpret an integer as a `u64` (Rust `as u64` cast, wrapping). -/
def u64ofInt (v : Int) : Nat := (v % 2 ^ 64).toNat

-- ---------------------------------------------------------------------------
-- Association-list maps, modelling `HashMap` (insert replaces, remove erases)
-- ---------------------------------------------------------------------------

/-- Model of `HashMap::insert`: later insert for the same key replaces the old value. -/
def insertA [BEq α] (l : List (α × β)) (k : α) (v : β) : List (α × β) :=
  (k, v) :: l.filter (fun p => !(p.1 == k))

/-- Model of `HashMap::remove`. -/
def eraseA [BEq α] (l : List (α × β)) (k : α) : List (α × β) :=
  l.filter (fun p => !(p.1 == k))

-- ---------------------------------------------------------------------------
-- The in-memory test backend of `make_test_fs` (fs.rs lines 594–742)
-- ---------------------------------------------------------------------------

/-- One entry of the handle map `HashMap<u64, (PathBuf, Vec<u8>, u64)>`:
path, in-memory buffer, cursor. -/
structure HandleState where
  path : String
  data : List Nat
  pos : Nat
  deriving DecidableEq, Repr

/-- The shared state of the test backend: the file store
`HashMap<PathBuf, Vec<u8>>`, the handle map, and the `AtomicU64`
`next_handle` counter (starts at 1). -/
structure TestFsState where
  store : List (String × List Nat)
  handles : List (Nat × HandleState)
  next : Nat
  deriving DecidableEq, Repr

/-- The initial backend state of `make_test_fs`: empty store, empty handle
map, counter at 1. -/
def initState : TestFsState := ⟨[], [], 1⟩

/-- The `read_file` closure: clone the stored bytes or `EntryNotFound`. -/
def read_file_cb (s : TestFsState) (p : String) : Except FsError (List Nat) :=
  match s.store.lookup p with
  | some d => .ok d
  | none => .error .EntryNotFound

/-- The `write_file` closure: insert the bytes at the path; always `Ok`. -/
def write_file_cb (s : TestFsState) (p : String) (d : List Nat) : TestFsState :=
  { s with store := insertA s.store p d }

/-- The `metadata_cb` closure: a stored path is a regular file of its stored
length; a missing path is `EntryNotFound`. -/
def metadata_cb (s : TestFsState) (p : String) : Except FsError FsMetadata :=
  match s.store.lookup p with
  | some d => .ok ⟨true, false, d.length⟩
  | none => .error .EntryNotFound

/-- The `open_cb` closure (fs.rs lines 665–675): snapshot the store's current
content for the path (empty if absent), allocate the next counter value as
the handle id (`fetch_add(1)` returns the old value), insert a fresh handle
with cursor 0, return the id.  Flags are ignored.  Always succeeds. -/
def open_cb (s : TestFsState) (p : String) (_fl : OpenFlags) : Nat × TestFsState :=
  let data := (s.store.lookup p).getD []
  let id := s.next
  (id, { s with
          next := s.next + 1
          handles := insertA s.handles id ⟨p, data, 0⟩ })

/-- Outcome of `handle_read_cb`, including the Rust panic raised by the
slice `data[start..end]` when `start > end`. -/
inductive ReadOutcome where
  | ok (bytes : List Nat) (s : TestFsState)
  | err (e : FsError)
  | panicked
  deriving DecidableEq, Repr

/-- The `handle_read_cb` closure (fs.rs lines 678–686): with `start = pos` and
`e = min (start + len) data.length`, return `data[start..e]` and set the
cursor to `e`.  The Rust slice `data[start..e]` panics when `start > e`,
i.e. when the cursor is strictly beyond the buffer. -/
def handle_read_cb (s : TestFsState) (h : Nat) (len : Nat) : ReadOutcome :=
  match s.handles.lookup h with
  | none => .err .InvalidFd
  | some hs =>
    let start := hs.pos
    let e := min (start + len) hs.data.length
    if start ≤ e then
      .ok ((hs.data.drop start).take (e - start))
        { s with handles := insertA s.handles h ⟨hs.path, hs.data, e⟩ }
    else
      .panicked

/-- The `handle_write_cb` closure (fs.rs lines 690–703): with `start = pos`,
grow the buffer to `start + buf.len()` with zeros if it is shorter
(`data.resize`), overwrite `[start, start + buf.len())` with `buf`
(`copy_from_slice`), advance the cursor by `buf.len()`, write the whole
buffer through to the store at the handle's path, and return `buf.len()`. -/
def handle_write_cb (s : TestFsState) (h : Nat) (buf : List Nat) :
    Except FsError (Nat × TestFsState) :=
  match s.handles.lookup h with
  | none => .error .InvalidFd
  | some hs =>
    let start := hs.pos
    let data0 :=
      if hs.data.length < start + buf.length then
        hs.data ++ List.replicate (start + buf.length - hs.data.length) 0
      else hs.data
    let data1 := data0.take start ++ buf ++ data0.drop (start + buf.length)
    .ok (buf.length,
      { s with
          handles := insertA s.handles h ⟨hs.path, data1, hs.pos + buf.length⟩
          store := insertA s.store hs.path data1 })

/-- The `handle_seek_cb` closure (fs.rs lines 706–716): `Start(p) -> p`;
`End(off) -> (data.len() as i64 + off) as u64`;
`Current(off) -> (pos as i64 + off) as u64`; sets the cursor to the result
and returns it.  The Rust `as u64` cast wraps (no clamping to zero). -/
def handle_seek_cb (s : TestFsState) (h : Nat) (sf : SeekFrom) :
    Except FsError (Nat × TestFsState) :=
  match s.handles.lookup h with
  | none => .error .InvalidFd
  | some hs =>
    let newPos : Nat :=
      match sf with
      | .start p => p
      | .fromEnd off => u64ofInt (i64ofU64 hs.data.length + off)
      | .current off => u64ofInt (i64ofU64 hs.pos + off)
    .ok (newPos,
      { s with handles := insertA s.handles h ⟨hs.path, hs.data, newPos⟩ })

/-- The `handle_close_cb` closure (fs.rs lines 719–723): remove the handle from
the map; always `Ok(())` (removing an absent id is a no-op). -/
def handle_close_cb (s : TestFsState) (h : Nat) : TestFsState :=
  { s with handles := eraseA s.handles h }

-- ---------------------------------------------------------------------------
-- ProxyFileSystem facade (`impl FileSystem for ProxyFileSystem`)
-- ---------------------------------------------------------------------------

/-- Method `ProxyFileSystem::readlink` (fs.rs lines 344–347): the body is literally
`Err(FsError::Unsupported)`; no callback is consulted and the backend state
cannot be touched. -/
def fsReadlink (_path : String) : Except FsError String :=
  .error .Unsupported

/-- Method `ProxyFileSystem::mount` (fs.rs lines 398–405): the body is literally
`Err(FsError::Unsupported)`; no callback is consulted. -/
def fsMount (_name : String) (_path : String) : Except FsError Unit :=
  .error .Unsupported

/-- Method `ProxyFileSystem::metadata` (fs.rs lines 380–383): delegate to the
`metadata` callback, translate with `to_vfs_metadata`. -/
def fsMetadata (s : TestFsState) (p : String) : Except FsError Metadata :=
  (metadata_cb s p).map to_vfs_metadata

/-- Method `ProxyFileSystem::symlink_metadata` (fs.rs lines 385–388): alias for
`metadata`. -/
def fsSymlinkMetadata (s : TestFsState) (p : String) : Except FsError Metadata :=
  fsMetadata s p

-- ---------------------------------------------------------------------------
-- ProxyFile (`struct ProxyFile { handle, callbacks }`)
-- ---------------------------------------------------------------------------

/-- A `ProxyFile` is just its numeric handle id (the callbacks are the
ambient backend modelled by `TestFsState`). -/
structure ProxyFile where
  handle : Nat
  deriving DecidableEq, Repr

/-- Method `VirtualFile::last_accessed` for `ProxyFile` (fs.rs lines 446–448). -/
def ProxyFile.last_accessed (_f : ProxyFile) : Nat := 0

/-- Method `VirtualFile::last_modified` for `ProxyFile` (fs.rs lines 450–452). -/
def ProxyFile.last_modified (_f : ProxyFile) : Nat := 0

/-- Method `VirtualFile::created_time` for `ProxyFile` (fs.rs lines 454–456). -/
def ProxyFile.created_time (_f : ProxyFile) : Nat := 0

/-- Method `VirtualFile::size` for `ProxyFile` (fs.rs lines 458–460). -/
def ProxyFile.size (_f : ProxyFile) : Nat := 0

/-- Method `VirtualFile::set_len` for `ProxyFile` (fs.rs lines 462–464): always
`Unsupported`, no callback invoked. -/
def ProxyFile.set_len (_f : ProxyFile) (_new_size : Nat) : Except FsError Unit :=
  .error .Unsupported

/-- Method `VirtualFile::unlink` for `ProxyFile` (fs.rs lines 466–468): always
`Unsupported`, no callback invoked. -/
def ProxyFile.unlink (_f : ProxyFile) : Except FsError Unit :=
  .error .Unsupported

/-- Method `AsyncSeek::start_seek` for `ProxyFile` (fs.rs lines 526–532): call the
`handle_seek` callback, DISCARD the returned new position (`Ok(_) => Ok(())`),
propagate errors. -/
def ProxyFile.start_seek (s : TestFsState) (f : ProxyFile) (sf : SeekFrom) :
    Except FsError TestFsState :=
  match handle_seek_cb s f.handle sf with
  | .ok (_, s') => .ok s'
  | .error e => .error e

/-- Method `AsyncSeek::poll_complete` for `ProxyFile` (fs.rs lines 534–541): always
`Poll::Ready(Ok(0))` — the reported position is the constant 0. -/
def ProxyFile.poll_complete (_f : ProxyFile) : Except FsError Nat :=
  .ok 0

/-- Impl `Drop for ProxyFile` (fs.rs lines 439–443): `let _ = handle_close(h)` —
the backend close is invoked and its result is discarded, so cleanup never
propagates an error. -/
def ProxyFile.drop (s : TestFsState) (f : ProxyFile) : TestFsState :=
  handle_close_cb s f.handle

/-- The `let _ =` in `Drop for ProxyFile`: whatever `handle_close` returns,
the drop produces `()` — errors are swallowed. -/
def dropDiscard (_closeResult : Except FsError Unit) : Unit := ()

-- ---------------------------------------------------------------------------
-- Trace models for the handle-id allocator (C6) and the close-once
-- lifecycle (C7)
-- ---------------------------------------------------------------------------

/-- Whole-filesystem operations that touch the handle table. -/
inductive FsOp where
  | opOpen (p : String) (fl : OpenFlags)
  | opClose (h : Nat)
  deriving DecidableEq, Repr

/-- Run a sequence of open/close operations against the backend, collecting
the handle ids returned by the successful `open_cb` calls, in order. -/
def runOps : TestFsState → List FsOp → TestFsState × List Nat
  | s, [] => (s, [])
  | s, .opOpen p fl :: rest =>
    let r := open_cb s p fl
    let t := runOps r.2 rest
    (t.1, r.1 :: t.2)
  | s, .opClose h :: rest => runOps (handle_close_cb s h) rest

/-- Per-handle operations a consumer can issue on a `ProxyFile` before it is
dropped. -/
inductive FileOp where
  | read (maxLen : Nat)
  | write (buf : List Nat)
  | seek (sf : SeekFrom)
  deriving DecidableEq, Repr

/-- The backend callbacks a `ProxyFile` can invoke, tagged with the handle
id they are invoked with. -/
inductive BackendCall where
  | callRead (h : Nat)
  | callWrite (h : Nat)
  | callSeek (h : Nat)
  | callClose (h : Nat)
  deriving DecidableEq, Repr

/-- Whether a backend call is a `handle_close` invocation. -/
def BackendCall.isClose : BackendCall → Bool
  | .callClose _ => true
  | _ => false

/-- The backend calls one `ProxyFile` operation makes (fs.rs: `poll_read`
calls `handle_read` once, `poll_write` calls `handle_write` once,
`start_seek` calls `handle_seek` once; `poll_flush`, `poll_shutdown` and
`poll_complete` call nothing). -/
def backendCallsOfOp (h : Nat) : FileOp → List BackendCall
  | .read _ => [.callRead h]
  | .write _ => [.callWrite h]
  | .seek _ => [.callSeek h]

/-- The backend calls made over a `ProxyFile`'s whole lifetime: the calls of
its read/write/seek operations, then the single `handle_close` from `Drop`
(Rust runs `Drop` exactly once, on every exit path — explicit drop, error,
or abandonment). -/
def lifecycleCalls (h : Nat) (ops : List FileOp) : List BackendCall :=
  (ops.map (backendCallsOfOp h)).flatten ++ [.callClose h]

-- ===========================================================================
-- Theorems
-- ===========================================================================

-- ---- association-list map lemmas ----

theorem lookup_insertA_self [BEq α] [LawfulBEq α] (l : List (α × β)) (k : α) (v : β) :
    (insertA l k v).lookup k = some v := by
  simp [insertA, List.lookup]

theorem lookup_filter_ne [BEq α] [LawfulBEq α] (l : List (α × β)) (k k' : α)
    (h : k' ≠ k) : (l.filter (fun p => !(p.1 == k))).lookup k' = l.lookup k' := by
  induction l with
  | nil => rfl
  | cons hd tl ih =>
    rcases hd with ⟨a, b⟩
    by_cases hak : a = k
    · subst hak
      have h2 : (k' == a) = false := by simpa using h
      simp [List.filter, List.lookup, h2, ih]
    · have h1 : (!(a == k)) = true := by simpa using hak
      simp [List.filter, h1, List.lookup, ih]

theorem lookup_insertA_ne [BEq α] [LawfulBEq α] (l : List (α × β)) (k k' : α) (v : β)
    (h : k' ≠ k) : (insertA l k v).lookup k' = l.lookup k' := by
  have hb : (k' == k) = false := by simpa using h
  simp only [insertA, List.lookup, hb]
  exact lookup_filter_ne l k k' h

-- ---- claim theorems ----

/-- C8: for every input, `readlink` and `mount` on the filesystem facade and
`set_len` and `unlink` on the proxy file object return the `Unsupported`
error.  The four definitions are constant in everything but their (unused)
arguments — in particular they take no backend state and can invoke no
backend callback, matching the source bodies, which are literally
`Err(FsError::Unsupported)`. -/
theorem c8_unsupported_operations :
    (∀ p, fsReadlink p = Except.error FsError.Unsupported)
    ∧ (∀ n p, fsMount n p = Except.error FsError.Unsupported)
    ∧ (∀ (f : ProxyFile) (sz : Nat), f.set_len sz = Except.error FsError.Unsupported)
    ∧ (∀ f : ProxyFile, f.unlink = Except.error FsError.Unsupported) :=
  ⟨fun _ => rfl, fun _ _ => rfl, fun _ _ => rfl, fun _ => rfl⟩

/-- C9: `start_seek` forwards the offset/whence to the backend `handle_seek`
callback but discards the returned new position (its success value is just
the updated state, carrying no position), and `poll_complete` always reports
position 0 — never the position the backend computed. -/
theorem c9_async_seek_reports_zero (s : TestFsState) (f : ProxyFile)
    (sf : SeekFrom) (pos : Nat) (s' : TestFsState)
    (hs : handle_seek_cb s f.handle sf = Except.ok (pos, s')) :
    ProxyFile.start_seek s f sf = Except.ok s'
    ∧ ProxyFile.poll_complete f = Except.ok 0 := by
  constructor
  · unfold ProxyFile.start_seek
    rw [hs]
  · rfl

/-- Witness for C9 at a concrete handle: seeking to position 5 succeeds in
the backend, yet the async surface's completed position is 0. -/
theorem c9_async_seek_reports_zero_witness :
    ProxyFile.start_seek ⟨[], [(1, ⟨"/w", [0, 1, 2], 0⟩)], 2⟩ ⟨1⟩ (SeekFrom.start 5)
      = Except.ok ⟨[], [(1, ⟨"/w", [0, 1, 2], 5⟩)], 2⟩
    ∧ ProxyFile.poll_complete ⟨1⟩ = Except.ok 0 :=
  c9_async_seek_reports_zero ⟨[], [(1, ⟨"/w", [0, 1, 2], 0⟩)], 2⟩ ⟨1⟩
    (SeekFrom.start 5) 5 ⟨[], [(1, ⟨"/w", [0, 1, 2], 5⟩)], 2⟩ rfl

/-- C10: regardless of the backing file's content, the proxy file object
reports `size() = 0` and all timestamps 0, while the facade's `metadata`
reports the true stored length for the path. -/
theorem c10_file_object_metadata_zero (f : ProxyFile) (s : TestFsState)
    (p : String) (data : List Nat) (hp : s.store.lookup p = some data) :
    f.size = 0 ∧ f.last_accessed = 0 ∧ f.last_modified = 0 ∧ f.created_time = 0
    ∧ fsMetadata s p = Except.ok ⟨FileType.new_file, 0, 0, 0, data.length⟩ := by
  refine ⟨rfl, rfl, rfl, rfl, ?_⟩
  simp [fsMetadata, metadata_cb, hp, to_vfs_metadata, Except.map]

/-- Witness for C10: a 3-byte file reports facade length 3 while the file
object's own size is 0. -/
theorem c10_file_object_metadata_zero_witness :
    ((⟨[("/f", [7, 7, 7])], [], 1⟩ : TestFsState).store.lookup "/f" = some [7, 7, 7])
    ∧ ((⟨1⟩ : ProxyFile).size = 0 ∧ (⟨1⟩ : ProxyFile).last_accessed = 0
        ∧ (⟨1⟩ : ProxyFile).last_modified = 0 ∧ (⟨1⟩ : ProxyFile).created_time = 0
        ∧ fsMetadata ⟨[("/f", [7, 7, 7])], [], 1⟩ "/f"
            = Except.ok ⟨FileType.new_file, 0, 0, 0, 3⟩) :=
  ⟨rfl, c10_file_object_metadata_zero ⟨1⟩ ⟨[("/f", [7, 7, 7])], [], 1⟩ "/f" [7, 7, 7] rfl⟩

/-- C5, counterexample: the claim says the translated file type is a regular
file if and only if `m.is_file`.  At `m = ⟨is_file := false, is_dir := false,
len := 7⟩` the translator produces a regular file (`else`-branch of the
`is_dir` test) although `is_file` is `false`, so the equivalence fails. -/
theorem c5_counterexample :
    ¬ (((to_vfs_metadata ⟨false, false, 7⟩).ft.file = true)
        ↔ ((⟨false, false, 7⟩ : FsMetadata).is_file = true)) := by
  decide

/-- C5, amended: the translated metadata has file type directory iff
`m.is_dir`, file type regular file iff `m.is_dir` is `false` (NOT iff
`m.is_file`: the translator only ever tests `is_dir`), `len` equal to
`m.len`, all timestamps zero; and `symlink_metadata` coincides with
`metadata` on every path and state. -/
theorem c5_metadata_translation (m : FsMetadata) (s : TestFsState) (p : String) :
    (to_vfs_metadata m).ft.dir = m.is_dir
    ∧ (to_vfs_metadata m).ft.file = !m.is_dir
    ∧ (to_vfs_metadata m).len = m.len
    ∧ (to_vfs_metadata m).accessed = 0
    ∧ (to_vfs_metadata m).created = 0
    ∧ (to_vfs_metadata m).modified = 0
    ∧ fsSymlinkMetadata s p = fsMetadata s p := by
  refine ⟨?_, ?_, rfl, rfl, rfl, rfl, rfl⟩ <;>
    cases hm : m.is_dir <;>
      simp [to_vfs_metadata, hm, FileType.new_dir, FileType.new_file]

theorem i64ofU64_small (n : Nat) (h : n < 2 ^ 63) : i64ofU64 n = n := by
  have h64 : n < 2 ^ 64 := lt_trans h (by norm_num)
  rw [i64ofU64, if_pos (by rw [Nat.mod_eq_of_lt h64]; exact h), Nat.mod_eq_of_lt h64]

theorem u64ofInt_small (v : Int) (h0 : 0 ≤ v) (h1 : v < 2 ^ 64) : u64ofInt v = v.toNat := by
  rw [u64ofInt, Int.emod_eq_of_lt h0 h1]

/-- C3: on a handle with buffer length `L` and cursor `c` (both below
`2 ^ 63`, so the `as i64` casts are value-preserving), `handle_seek_cb`
returns and installs as the new cursor: `n` for `Start(n)`, `c + n` for
`Current(n)`, `L + n` for `End(n)` — `n` possibly negative, the result not
clamped to zero (any in-range value, zero or not, is returned as-is). -/
theorem c3_seek_arithmetic (s : TestFsState) (h : Nat) (p : String)
    (data : List Nat) (c : Nat)
    (hh : s.handles.lookup h = some ⟨p, data, c⟩)
    (hc : c < 2 ^ 63) (hL : data.length < 2 ^ 63) :
    (∀ n : Nat, handle_seek_cb s h (.start n)
        = .ok (n, { s with handles := insertA s.handles h ⟨p, data, n⟩ }))
    ∧ (∀ off : Int, 0 ≤ (c : Int) + off → (c : Int) + off < 2 ^ 64 →
        handle_seek_cb s h (.current off)
          = .ok (((c : Int) + off).toNat,
              { s with handles := insertA s.handles h ⟨p, data, ((c : Int) + off).toNat⟩ }))
    ∧ (∀ off : Int, 0 ≤ (data.length : Int) + off → (data.length : Int) + off < 2 ^ 64 →
        handle_seek_cb s h (.fromEnd off)
          = .ok (((data.length : Int) + off).toNat,
              { s with
                  handles := insertA s.handles h
                    ⟨p, data, ((data.length : Int) + off).toNat⟩ })) := by
  refine ⟨?_, ?_, ?_⟩
  · intro n
    simp [handle_seek_cb, hh]
  · intro off h0 h1
    simp [handle_seek_cb, hh, i64ofU64_small c hc, u64ofInt_small _ h0 h1]
  · intro off h0 h1
    simp [handle_seek_cb, hh, i64ofU64_small data.length hL, u64ofInt_small _ h0 h1]

/-- Witness for C3, the spec's concrete example: a 10-byte buffer with
cursor 4 — `seek(Current(2)) = 6`, `seek(End(-3)) = 7`, `seek(Start(0)) = 0`. -/
theorem c3_seek_arithmetic_witness :
    handle_seek_cb ⟨[], [(1, ⟨"/s", List.replicate 10 0, 4⟩)], 2⟩ 1 (SeekFrom.current 2)
      = Except.ok (6, ⟨[], [(1, ⟨"/s", List.replicate 10 0, 6⟩)], 2⟩)
    ∧ handle_seek_cb ⟨[], [(1, ⟨"/s", List.replicate 10 0, 4⟩)], 2⟩ 1 (SeekFrom.fromEnd (-3))
      = Except.ok (7, ⟨[], [(1, ⟨"/s", List.replicate 10 0, 7⟩)], 2⟩)
    ∧ handle_seek_cb ⟨[], [(1, ⟨"/s", List.replicate 10 0, 4⟩)], 2⟩ 1 (SeekFrom.start 0)
      = Except.ok (0, ⟨[], [(1, ⟨"/s", List.replicate 10 0, 0⟩)], 2⟩) := by
  have H := c3_seek_arithmetic ⟨[], [(1, ⟨"/s", List.replicate 10 0, 4⟩)], 2⟩ 1 "/s"
    (List.replicate 10 0) 4 rfl (by norm_num) (by simp)
  refine ⟨?_, ?_, ?_⟩
  · exact H.2.1 2 (by norm_num) (by norm_num)
  · exact H.2.2 (-3) (by simp) (by simp)
  · exact H.1 0

/-- C2: round trip — `write_file(p, b)`, then `open(p, flags)` (the open
snapshots the store), then a read of at least `b.length` bytes yields
exactly `b`. -/
theorem c2_round_trip (s : TestFsState) (p : String) (b : List Nat)
    (fl : OpenFlags) (n : Nat) (hn : b.length ≤ n) :
    ∃ s3 : TestFsState,
      handle_read_cb (open_cb (write_file_cb s p b) p fl).2
          (open_cb (write_file_cb s p b) p fl).1 n
        = ReadOutcome.ok b s3 := by
  have hmin : min (0 + n) b.length = b.length := by omega
  refine ⟨⟨insertA s.store p b,
           insertA (insertA s.handles s.next ⟨p, b, 0⟩) s.next ⟨p, b, b.length⟩,
           s.next + 1⟩, ?_⟩
  simp only [write_file_cb, open_cb, handle_read_cb, lookup_insertA_self,
    Option.getD_some, hmin, Nat.sub_zero, List.drop_zero, List.take_length,
    if_pos (Nat.zero_le _)]

/-- Witness for C2: writing `[1, 2, 3]` to `/a` from the initial state and
reading 3 bytes through a fresh handle returns `[1, 2, 3]`. -/
theorem c2_round_trip_witness :
    ([1, 2, 3] : List Nat).length ≤ 3
    ∧ ∃ s3 : TestFsState,
        handle_read_cb
            (open_cb (write_file_cb initState "/a" [1, 2, 3]) "/a"
              ⟨true, false, false, false, false, false⟩).2
            (open_cb (write_file_cb initState "/a" [1, 2, 3]) "/a"
              ⟨true, false, false, false, false, false⟩).1 3
          = ReadOutcome.ok [1, 2, 3] s3 :=
  ⟨by decide,
   c2_round_trip initState "/a" [1, 2, 3]
     ⟨true, false, false, false, false, false⟩ 3 (by decide)⟩

/-- C4, counterexample: with a 3-byte buffer and cursor 5 (reachable by
seeking past end-of-file), `handle_read_cb` PANICS — the Rust slice
`data[5..3]` has start > end — instead of returning the empty clamped range
`[5, 5+4) ∩ [0, 3) = []` with the cursor advanced by 0 (i.e. the state
unchanged) as the claim requires. -/
theorem c4_counterexample :
    handle_read_cb ⟨[], [(1, ⟨"/r", [10, 20, 30], 5⟩)], 2⟩ 1 4 = ReadOutcome.panicked
    ∧ handle_read_cb ⟨[], [(1, ⟨"/r", [10, 20, 30], 5⟩)], 2⟩ 1 4
        ≠ ReadOutcome.ok [] ⟨[], [(1, ⟨"/r", [10, 20, 30], 5⟩)], 2⟩ :=
  ⟨rfl, by decide⟩

/-- C4, amended: for every cursor `c ≤ buffer length`, `handle_read_cb`
returns the bytes of `[c, c + max_len)` clamped to the buffer length,
advances the cursor by exactly the number of bytes returned, and neither
reads nor writes the backing store (the result is the same for any store
contents, and the store is unchanged); other handles are untouched.  For a
cursor strictly beyond the buffer length the code panics instead
(out-of-bounds slice), so the claim's "every cursor position" does not
hold. -/
theorem c4_read_semantics (s : TestFsState) (h : Nat) (p : String) (data : List Nat)
    (c n : Nat) (hh : s.handles.lookup h = some ⟨p, data, c⟩) (hc : c ≤ data.length) :
    ∃ bytes s',
      handle_read_cb s h n = ReadOutcome.ok bytes s'
      ∧ bytes = (data.drop c).take n
      ∧ s'.handles.lookup h = some ⟨p, data, c + bytes.length⟩
      ∧ s'.store = s.store
      ∧ (∀ st2, handle_read_cb ⟨st2, s.handles, s.next⟩ h n
            = ReadOutcome.ok bytes ⟨st2, s'.handles, s'.next⟩)
      ∧ (∀ h2, h2 ≠ h → s'.handles.lookup h2 = s.handles.lookup h2) := by
  have hce : c ≤ min (c + n) data.length := le_min (Nat.le_add_right c n) hc
  have hbytes : (data.drop c).take (min (c + n) data.length - c) = (data.drop c).take n := by
    apply List.take_eq_take.mpr
    simp only [List.length_drop]
    omega
  have hlen : c + ((data.drop c).take n).length = min (c + n) data.length := by
    simp only [List.length_take, List.length_drop]
    omega
  refine ⟨(data.drop c).take n,
    ⟨s.store, insertA s.handles h ⟨p, data, min (c + n) data.length⟩, s.next⟩,
    ?_, rfl, ?_, rfl, ?_, ?_⟩
  · simp only [handle_read_cb, hh, if_pos hce, hbytes]
  · rw [lookup_insertA_self, ← hlen]
  · intro st2
    simp only [handle_read_cb, hh, if_pos hce, hbytes]
  · intro h2 hne
    exact lookup_insertA_ne _ _ _ _ hne

/-- Witness for C4 (amended): reading 2 bytes at cursor 1 of a 4-byte
buffer returns the 2 bytes there and advances the cursor to 3. -/
theorem c4_read_semantics_witness :
    ((⟨[], [(1, ⟨"/r", [1, 2, 3, 4], 1⟩)], 2⟩ : TestFsState).handles.lookup 1
        = some ⟨"/r", [1, 2, 3, 4], 1⟩)
    ∧ (1 ≤ ([1, 2, 3, 4] : List Nat).length)
    ∧ (∃ bytes s',
        handle_read_cb ⟨[], [(1, ⟨"/r", [1, 2, 3, 4], 1⟩)], 2⟩ 1 2
          = ReadOutcome.ok bytes s'
        ∧ bytes = (([1, 2, 3, 4] : List Nat).drop 1).take 2
        ∧ s'.handles.lookup 1 = some ⟨"/r", [1, 2, 3, 4], 1 + bytes.length⟩
        ∧ s'.store = (⟨[], [(1, ⟨"/r", [1, 2, 3, 4], 1⟩)], 2⟩ : TestFsState).store
        ∧ (∀ st2, handle_read_cb
              ⟨st2, (⟨[], [(1, ⟨"/r", [1, 2, 3, 4], 1⟩)], 2⟩ : TestFsState).handles,
                (⟨[], [(1, ⟨"/r", [1, 2, 3, 4], 1⟩)], 2⟩ : TestFsState).next⟩ 1 2
              = ReadOutcome.ok bytes ⟨st2, s'.handles, s'.next⟩)
        ∧ (∀ h2, h2 ≠ 1 →
            s'.handles.lookup h2
              = (⟨[], [(1, ⟨"/r", [1, 2, 3, 4], 1⟩)], 2⟩ : TestFsState).handles.lookup h2)) :=
  ⟨rfl, by decide,
   c4_read_semantics ⟨[], [(1, ⟨"/r", [1, 2, 3, 4], 1⟩)], 2⟩ 1 "/r" [1, 2, 3, 4] 1 2
     rfl (by decide)⟩

/-- C1: write-through — on a handle for path `p` with buffer `data` and
cursor `c`, `handle_write_cb` with bytes `b` grows the in-memory buffer to
at least `c + b.length` (exactly `max data.length (c + b.length)`),
zero-fills any gap between the old end and the cursor, copies `b` at offset
`c`, advances the cursor by `b.length`, and persists the whole updated
buffer as the store entry for `p`; consequently a new handle opened on `p`
afterwards snapshots the updated buffer (so it observes `b` at offset `c`),
while every handle other than `h` that existed before the write is left
unchanged (it does not observe `b`). -/
theorem c1_write_through (s : TestFsState) (h : Nat) (p : String)
    (data : List Nat) (c : Nat) (b : List Nat)
    (hh : s.handles.lookup h = some ⟨p, data, c⟩) :
    ∃ (data' : List Nat) (s' : TestFsState),
      handle_write_cb s h b = Except.ok (b.length, s')
      ∧ data'.length = max data.length (c + b.length)
      ∧ (∀ i, i < b.length → data'[c + i]? = b[i]?)
      ∧ (∀ i, data.length ≤ i → i < c → data'[i]? = some (0 : Nat))
      ∧ s'.handles.lookup h = some ⟨p, data', c + b.length⟩
      ∧ s'.store.lookup p = some data'
      ∧ (∀ fl, (open_cb s' p fl).2.handles.lookup (open_cb s' p fl).1
            = some ⟨p, data', 0⟩)
      ∧ (∀ h2, h2 ≠ h → s'.handles.lookup h2 = s.handles.lookup h2) := by
  set d0 : List Nat :=
    if data.length < c + b.length then
      data ++ List.replicate (c + b.length - data.length) 0
    else data with hd0
  have hlen0 : d0.length = max data.length (c + b.length) := by
    rw [hd0]
    split
    · simp only [List.length_append, List.length_replicate]
      omega
    · omega
  have hck : c + b.length ≤ d0.length := by rw [hlen0]; exact le_max_right _ _
  have hdlen : data.length ≤ d0.length := by rw [hlen0]; exact le_max_left _ _
  have hc0 : c ≤ d0.length := le_trans (Nat.le_add_right c b.length) hck
  have htake : (d0.take c).length = c := by
    simp only [List.length_take]
    omega
  set d1 : List Nat := d0.take c ++ b ++ d0.drop (c + b.length) with hd1
  have hlen1 : d1.length = d0.length := by
    rw [hd1]
    simp only [List.length_append, List.length_take, List.length_drop]
    omega
  have hcopy : ∀ i, i < b.length → d1[c + i]? = b[i]? := by
    intro i hi
    rw [hd1]
    rw [List.getElem?_append_left
      (by simp only [List.length_append, htake]; omega)]
    rw [List.getElem?_append_right (by rw [htake]; omega)]
    rw [htake, Nat.add_sub_cancel_left]
  have hzero : ∀ i, data.length ≤ i → i < c → d1[i]? = some (0 : Nat) := by
    intro i hge hlt
    have hgrow : data.length < c + b.length := by omega
    rw [hd1]
    rw [List.getElem?_append_left
      (by simp only [List.length_append, htake]; omega)]
    rw [List.getElem?_append_left (by rw [htake]; omega)]
    rw [List.getElem?_take_of_lt hlt]
    rw [hd0, if_pos hgrow]
    rw [List.getElem?_append_right hge]
    exact List.getElem?_replicate_of_lt (by omega)
  refine ⟨d1,
    ⟨insertA s.store p d1, insertA s.handles h ⟨p, d1, c + b.length⟩, s.next⟩,
    ?_, hlen1.trans hlen0, hcopy, hzero, ?_, ?_, ?_, ?_⟩
  · simp only [handle_write_cb, hh]
  · exact lookup_insertA_self _ _ _
  · exact lookup_insertA_self _ _ _
  · intro fl
    simp only [open_cb, lookup_insertA_self, Option.getD_some]
  · intro h2 hne
    exact lookup_insertA_ne _ _ _ _ hne

/-- Witness for C1: writing `[9, 8]` at cursor 5 of a 3-byte file `/a`
zero-fills bytes 3 and 4, places the data at offsets 5–6, advances the
cursor to 7, and persists the 7-byte buffer. -/
theorem c1_write_through_witness :
    ((⟨[("/a", [1, 2, 3])], [(1, ⟨"/a", [1, 2, 3], 5⟩)], 2⟩ : TestFsState).handles.lookup 1
        = some ⟨"/a", [1, 2, 3], 5⟩)
    ∧ (∃ (data' : List Nat) (s' : TestFsState),
        handle_write_cb ⟨[("/a", [1, 2, 3])], [(1, ⟨"/a", [1, 2, 3], 5⟩)], 2⟩ 1 [9, 8]
          = Except.ok (([9, 8] : List Nat).length, s')
        ∧ data'.length = max ([1, 2, 3] : List Nat).length (5 + ([9, 8] : List Nat).length)
        ∧ (∀ i, i < ([9, 8] : List Nat).length → data'[5 + i]? = ([9, 8] : List Nat)[i]?)
        ∧ (∀ i, ([1, 2, 3] : List Nat).length ≤ i → i < 5 → data'[i]? = some (0 : Nat))
        ∧ s'.handles.lookup 1 = some ⟨"/a", data', 5 + ([9, 8] : List Nat).length⟩
        ∧ s'.store.lookup "/a" = some data'
        ∧ (∀ fl, (open_cb s' "/a" fl).2.handles.lookup (open_cb s' "/a" fl).1
              = some ⟨"/a", data', 0⟩)
        ∧ (∀ h2, h2 ≠ 1 → s'.handles.lookup h2
              = (⟨[("/a", [1, 2, 3])],
                  [(1, ⟨"/a", [1, 2, 3], 5⟩)], 2⟩ : TestFsState).handles.lookup h2)) :=
  ⟨rfl,
   c1_write_through ⟨[("/a", [1, 2, 3])], [(1, ⟨"/a", [1, 2, 3], 5⟩)], 2⟩ 1 "/a"
     [1, 2, 3] 5 [9, 8] rfl⟩

theorem not_mem_filterA_map_fst (l : List (Nat × HandleState)) (k : Nat) :
    k ∉ (l.filter (fun q => !(q.1 == k))).map Prod.fst := by
  intro hmem
  rcases List.mem_map.mp hmem with ⟨q, hq, hfst⟩
  have := (List.mem_filter.mp hq).2
  simp only [Bool.not_eq_true', beq_eq_false_iff_ne, ne_eq] at this
  exact this hfst

theorem runOps_invariant (ops : List FsOp) (s : TestFsState)
    (hb : ∀ k ∈ s.handles.map Prod.fst, k < s.next)
    (hn : (s.handles.map Prod.fst).Nodup) :
    (∀ k ∈ (runOps s ops).1.handles.map Prod.fst, k < (runOps s ops).1.next)
    ∧ ((runOps s ops).1.handles.map Prod.fst).Nodup := by
  induction ops generalizing s with
  | nil => exact ⟨hb, hn⟩
  | cons op rest ih =>
    cases op with
    | opOpen p fl =>
      simp only [runOps]
      apply ih
      · intro k hk
        simp only [open_cb, insertA, List.map_cons, List.mem_cons] at hk ⊢
        rcases hk with rfl | hk
        · omega
        · have hmem : k ∈ s.handles.map Prod.fst :=
            List.map_subset _ (List.filter_sublist _).subset hk
          have := hb k hmem
          omega
      · simp only [open_cb, insertA, List.map_cons]
        refine List.Nodup.cons (not_mem_filterA_map_fst _ _) ?_
        exact hn.sublist ((List.filter_sublist _).map Prod.fst)
    | opClose h =>
      simp only [runOps]
      apply ih
      · intro k hk
        simp only [handle_close_cb, eraseA] at hk
        exact hb k (List.map_subset _ (List.filter_sublist _).subset hk)
      · simp only [handle_close_cb, eraseA]
        exact hn.sublist ((List.filter_sublist _).map Prod.fst)

theorem runOps_ids_ge (ops : List FsOp) (s : TestFsState) :
    ∀ i ∈ (runOps s ops).2, s.next ≤ i := by
  induction ops generalizing s with
  | nil => intro i hi; simp [runOps] at hi
  | cons op rest ih =>
    cases op with
    | opOpen p fl =>
      intro i hi
      simp only [runOps, List.mem_cons] at hi
      rcases hi with rfl | hi
      · simp [open_cb]
      · have h2 := ih (open_cb s p fl).2 i hi
        simp only [open_cb] at h2
        omega
    | opClose h =>
      intro i hi
      simp only [runOps] at hi
      have h2 := ih (handle_close_cb s h) i hi
      simpa [handle_close_cb] using h2

theorem runOps_ids_pairwise (ops : List FsOp) (s : TestFsState) :
    (runOps s ops).2.Pairwise (· < ·) := by
  induction ops generalizing s with
  | nil => exact List.Pairwise.nil
  | cons op rest ih =>
    cases op with
    | opOpen p fl =>
      simp only [runOps]
      refine List.Pairwise.cons ?_ (ih _)
      intro i hi
      have h2 := runOps_ids_ge rest (open_cb s p fl).2 i hi
      simp only [open_cb] at h2 ⊢
      omega
    | opClose h =>
      simp only [runOps]
      exact ih _

/-- C6: over any sequence of open and close operations from the initial
backend state, the handle ids returned by the successful opens are strictly
increasing in order of allocation (hence pairwise distinct, and an id closed
earlier is never handed out again — every later id is strictly larger), and
the final handle table has at most one entry per id (its key list has no
duplicates; since the operation sequence is arbitrary, this holds in every
reachable state). -/
theorem c6_handle_id_uniqueness (ops : List FsOp) :
    (runOps initState ops).2.Pairwise (· < ·)
    ∧ (runOps initState ops).2.Nodup
    ∧ ((runOps initState ops).1.handles.map Prod.fst).Nodup := by
  refine ⟨runOps_ids_pairwise ops initState, ?_, ?_⟩
  · exact (runOps_ids_pairwise ops initState).imp ne_of_lt
  · exact (runOps_invariant ops initState (by simp [initState]) (by simp [initState])).2

/-- C7: over a `ProxyFile`'s whole lifetime — any sequence of read, write
and seek operations followed by the single `Drop` Rust runs on every exit
path — the backend sees exactly one `handle_close` invocation, and it
carries the file's own handle id (the filtered close-call log is exactly
`[callClose h]`).  Moreover the cleanup swallows any result of the close
callback (`let _ = ...` yields `()` whatever the `Except` value), and the
drop's effect on the backend is exactly `handle_close_cb`, which always
succeeds. -/
theorem c7_close_exactly_once (h : Nat) (ops : List FileOp) :
    (lifecycleCalls h ops).filter BackendCall.isClose = [BackendCall.callClose h]
    ∧ (lifecycleCalls h ops).count (BackendCall.callClose h) = 1
    ∧ (∀ r : Except FsError Unit, dropDiscard r = ())
    ∧ (∀ s : TestFsState, ProxyFile.drop s ⟨h⟩ = handle_close_cb s h) := by
  have hnone : ((ops.map (backendCallsOfOp h)).flatten.filter BackendCall.isClose) = [] := by
    induction ops with
    | nil => rfl
    | cons op rest ih =>
      cases op <;> simpa [backendCallsOfOp, BackendCall.isClose] using ih
  have hnotmem : BackendCall.callClose h ∉ (ops.map (backendCallsOfOp h)).flatten := by
    intro hm
    have hmem : BackendCall.callClose h
        ∈ (ops.map (backendCallsOfOp h)).flatten.filter BackendCall.isClose :=
      List.mem_filter.mpr ⟨hm, rfl⟩
    rw [hnone] at hmem
    exact absurd hmem (List.not_mem_nil _)
  refine ⟨?_, ?_, fun _ => rfl, fun _ => rfl⟩
  · simp [lifecycleCalls, List.filter_append, hnone, BackendCall.isClose]
  · simp [lifecycleCalls, List.count_append, List.count_eq_zero.mpr hnotmem]

end ProxyFs
